import Mathlib

/-!
Verification development for the live interview session coordinator:
a shallow embedding of the proctoring event pipeline
(src/routes/proctoring.js), the live-interview session lifecycle
(src/routes/resume.js) and the socket room registry / collaborative state
synchronizer (src/socket/handlers.js), with theorems settling the
specification claims about them.

JavaScript `Map` objects are embedded as association lists
(`List (kappa × alpha)`) with `set` replacing the first matching key (or
appending), `delete` removing it, and `get`/`has` searching it; on the
unique-key states produced by the handlers this is exactly the `Map`
semantics.  `req.body` fields, which may be absent (`undefined`), are
embedded as `Option` values; `undefined` used as a `Map` key is the key
`none`.  `new Date()` timestamps are passed in as explicit `Nat`
parameters.
-/

set_option autoImplicit false

namespace HireSpec

/-! ### Association-list embedding of JavaScript `Map` -/

def mapGet {κ α : Type} [DecidableEq κ] : List (κ × α) → κ → Option α
  | [], _ => none
  | (k1, v) :: t, k => if k1 = k then some v else mapGet t k

def mapHas {κ α : Type} [DecidableEq κ] (m : List (κ × α)) (k : κ) : Bool :=
  (mapGet m k).isSome

def mapSet {κ α : Type} [DecidableEq κ] : List (κ × α) → κ → α → List (κ × α)
  | [], k, v => [(k, v)]
  | (k1, v1) :: t, k, v => if k1 = k then (k, v) :: t else (k1, v1) :: mapSet t k v

def mapDelete {κ α : Type} [DecidableEq κ] : List (κ × α) → κ → List (κ × α)
  | [], _ => []
  | (k1, v1) :: t, k => if k1 = k then mapDelete t k else (k1, v1) :: mapDelete t k

/-- The `if (!m.has(k)) m.set(k, []); m.get(k).push(x)` idiom. -/
def mapPush {κ α : Type} [DecidableEq κ] (m : List (κ × List α)) (k : κ) (x : α) :
    List (κ × List α) :=
  let m1 := if mapHas m k then m else mapSet m k []
  mapSet m1 k ((mapGet m1 k).getD [] ++ [x])

theorem mapGet_set_self {κ α : Type} [DecidableEq κ] (m : List (κ × α)) (k : κ) (v : α) :
    mapGet (mapSet m k v) k = some v := by
  induction m with
  | nil => simp [mapSet, mapGet]
  | cons hd t ih =>
      by_cases h : hd.1 = k
      · simp [mapSet, h, mapGet]
      · simp [mapSet, h, mapGet, ih]

theorem mapGet_set_ne {κ α : Type} [DecidableEq κ] (m : List (κ × α)) (k k1 : κ) (v : α)
    (h : k1 ≠ k) : mapGet (mapSet m k v) k1 = mapGet m k1 := by
  induction m with
  | nil => simp [mapSet, mapGet, Ne.symm h]
  | cons hd t ih =>
      by_cases hk : hd.1 = k
      · subst hk
        simp [mapSet, mapGet, Ne.symm h]
      · by_cases hk1 : hd.1 = k1
        · simp [mapSet, hk, mapGet, hk1, h]
        · simp [mapSet, hk, mapGet, hk1, ih, h]

theorem mapGet_delete_self {κ α : Type} [DecidableEq κ] (m : List (κ × α)) (k : κ) :
    mapGet (mapDelete m k) k = none := by
  induction m with
  | nil => simp [mapDelete, mapGet]
  | cons hd t ih =>
      by_cases h : hd.1 = k
      · simp [mapDelete, h, ih]
      · simp [mapDelete, h, mapGet, ih]

theorem mapGet_delete_ne {κ α : Type} [DecidableEq κ] (m : List (κ × α)) (k k1 : κ)
    (h : k1 ≠ k) : mapGet (mapDelete m k) k1 = mapGet m k1 := by
  induction m with
  | nil => simp [mapDelete]
  | cons hd t ih =>
      by_cases hk : hd.1 = k
      · subst hk
        simp [mapDelete, mapGet, Ne.symm h, ih]
      · by_cases hk1 : hd.1 = k1
        · simp [mapDelete, hk, mapGet, hk1, h]
        · simp [mapDelete, hk, mapGet, hk1, ih, h]

theorem mapHas_set {κ α : Type} [DecidableEq κ] (m : List (κ × α)) (k k1 : κ) (v : α) :
    mapHas (mapSet m k v) k1 = (if k1 = k then true else mapHas m k1) := by
  by_cases h : k1 = k
  · subst h
    simp [mapHas, mapGet_set_self]
  · simp [mapHas, h, mapGet_set_ne m k k1 v h]

theorem mapHas_delete {κ α : Type} [DecidableEq κ] (m : List (κ × α)) (k k1 : κ) :
    mapHas (mapDelete m k) k1 = (if k1 = k then false else mapHas m k1) := by
  by_cases h : k1 = k
  · subst h
    simp [mapHas, mapGet_delete_self]
  · simp [mapHas, h, mapGet_delete_ne m k k1 h]

theorem mapGet_push_self {κ α : Type} [DecidableEq κ] (m : List (κ × List α)) (k : κ) (x : α) :
    mapGet (mapPush m k x) k = some ((mapGet m k).getD [] ++ [x]) := by
  unfold mapPush
  by_cases h : mapHas m k
  · simp [h, mapGet_set_self]
  · have hget : mapGet m k = none := by
      cases hg : mapGet m k with
      | none => rfl
      | some v => exact absurd (by simp [mapHas, hg]) h
    simp [h, mapGet_set_self, hget]

theorem mapGet_push_ne {κ α : Type} [DecidableEq κ] (m : List (κ × List α)) (k k1 : κ) (x : α)
    (h : k1 ≠ k) : mapGet (mapPush m k x) k1 = mapGet m k1 := by
  unfold mapPush
  by_cases hh : mapHas m k
  · simp [hh, mapGet_set_ne _ _ _ _ h]
  · simp [hh, mapGet_set_ne _ _ _ _ h]

/-! ### Proctoring event pipeline (src/routes/proctoring.js)

Request-body fields are `Option` values (`none` = the field was absent
from the JSON body).  A JavaScript falsiness test `!s` on a string field
holds when the field is absent or is the empty string. -/

def falsyStr : Option String → Bool
  | none => true
  | some s => s = ""

/-- A stored proctoring event (the object pushed in POST /event and in
the failed branch of POST /verify-identity). -/
structure PEvent where
  eventType : Option String
  severity : Option String
  details : Option String
  timestamp : Nat
  deriving Repr, DecidableEq

/-- An active-session record (POST /session). -/
structure PSession where
  interviewId : Option String
  candidateName : Option String
  candidateEmail : Option String
  recruiterName : Option String
  startTime : Nat
  lastActivity : Nat
  status : String
  eventCount : Nat
  endTime : Option Nat
  deriving Repr, DecidableEq

/-- An identity-verification record (POST /verify-identity). -/
structure VRecord where
  timestamp : Nat
  userId : Option String
  verified : Bool
  score : Option Int
  liveness : Option Bool
  deriving Repr, DecidableEq

/-- The module-level in-memory stores of src/routes/proctoring.js. -/
structure PState where
  proctoringEvents : List (Option String × List PEvent)
  activeSessions : List (Option String × PSession)
  identityVerifications : List (Option String × List VRecord)
  deriving Repr, DecidableEq

def emptyPState : PState :=
  { proctoringEvents := [], activeSessions := [], identityVerifications := [] }

/-- The deduction applied by the `switch (event.severity)` in
GET /:interviewId/score; severities outside the four cases deduct nothing. -/
def deduction (sev : Option String) : Int :=
  if sev = some "low" then 2
  else if sev = some "medium" then 5
  else if sev = some "high" then 10
  else if sev = some "critical" then 20
  else 0

/-- A JavaScript object property key: `obj[undefined]` is the key
`"undefined"`. -/
def propKey : Option String → String
  | none => "undefined"
  | some s => s

/-- One iteration of the `events.forEach` in GET /:interviewId/score:
bump the per-event-type breakdown counter, then deduct by severity. -/
def scoreStep (acc : Int × List (String × Nat)) (ev : PEvent) : Int × List (String × Nat) :=
  let b := mapSet acc.2 (propKey ev.eventType) ((mapGet acc.2 (propKey ev.eventType)).getD 0 + 1)
  (acc.1 - deduction ev.severity, b)

/-- The fold performed by GET /:interviewId/score over the event log,
starting from score 100 and an empty breakdown object. -/
def scoreBreakdown (events : List PEvent) : Int × List (String × Nat) :=
  events.foldl scoreStep (100, [])

structure ScoreResp where
  score : Int
  totalEvents : Nat
  breakdown : List (String × Nat)
  deriving Repr, DecidableEq

/-- GET /proctoring/:interviewId/score — reads the log (defaulting to `[]`)
and returns `{score: max(0, score), totalEvents, breakdown}` with HTTP
status 200.  The handler performs no writes, so the state it leaves
behind is the state it received. -/
def getScoreT (s : PState) (interviewId : String) : PState × (Nat × ScoreResp) :=
  let events := (mapGet s.proctoringEvents (some interviewId)).getD []
  let sb := scoreBreakdown events
  (s, (200, { score := max 0 sb.1, totalEvents := events.length, breakdown := sb.2 }))

/-- GET /proctoring/:interviewId — returns the event log, or `[]` for an
unknown id, always with HTTP status 200. -/
def getEventsT (s : PState) (interviewId : String) : PState × (Nat × List PEvent) :=
  (s, (200, (mapGet s.proctoringEvents (some interviewId)).getD []))

structure DashResp where
  session : PSession
  events : List PEvent
  eventCount : Nat
  deriving Repr, DecidableEq

/-- GET /proctoring/dashboard/:interviewId — 404 when the session is
unknown, otherwise 200 with the session, its events and their count. -/
def getDashboardT (s : PState) (interviewId : String) : PState × (Nat × Option DashResp) :=
  match mapGet s.activeSessions (some interviewId) with
  | none => (s, (404, none))
  | some sess =>
      let events := (mapGet s.proctoringEvents (some interviewId)).getD []
      (s, (200, some { session := sess, events := events, eventCount := events.length }))

/-- POST /proctoring/event — no field validation: initializes the log
for the (possibly absent) interview id, pushes the event, updates the
active session's `lastActivity`/`eventCount` when one exists, and
responds `{success: true, event}` with status 200. -/
def postEventT (s : PState) (interviewId eventType severity details : Option String)
    (now : Nat) : PState × (Nat × PEvent) :=
  let event : PEvent :=
    { eventType := eventType, severity := severity, details := details, timestamp := now }
  let pe := mapPush s.proctoringEvents interviewId event
  let as :=
    match mapGet s.activeSessions interviewId with
    | some sess =>
        mapSet s.activeSessions interviewId
          { sess with lastActivity := now, eventCount := sess.eventCount + 1 }
    | none => s.activeSessions
  ({ proctoringEvents := pe, activeSessions := as,
     identityVerifications := s.identityVerifications }, (200, event))

/-- The external face-verification collaborator's reply. -/
structure VerifyResult where
  verified : Bool
  score : Option Int
  liveness : Option Bool
  reason : Option String
  deriving Repr, DecidableEq

structure VerifyResp where
  status : Nat
  success : Bool
  verified : Bool
  deriving Repr, DecidableEq

/-- POST /proctoring/verify-identity — rejects a missing/empty `userId` or
`image` with 400 before touching any store; a failed external call
(`ext = none`) yields 503 with no mutation; otherwise the verification
record is pushed and, when not verified, a critical `identity_mismatch`
event is appended to the same proctoring log. -/
def verifyIdentityT (s : PState) (interviewId userId image : Option String)
    (ext : Option VerifyResult) (now : Nat) : PState × VerifyResp :=
  if falsyStr userId || falsyStr image then
    (s, { status := 400, success := false, verified := false })
  else
    match ext with
    | none => (s, { status := 503, success := false, verified := false })
    | some result =>
        let vrec : VRecord :=
          { timestamp := now, userId := userId, verified := result.verified,
            score := result.score, liveness := result.liveness }
        let s1 :=
          { s with
            identityVerifications := mapPush s.identityVerifications interviewId vrec }
        let mismatchEvent : PEvent :=
          { eventType := some "identity_mismatch", severity := some "critical",
            details := some ("Face does not match registered user. Score: " ++
              (match result.score with | some n => toString n | none => "N/A")),
            timestamp := now }
        let s2 :=
          if result.verified then s1
          else
            { s1 with
              proctoringEvents := mapPush s1.proctoringEvents interviewId mismatchEvent }
        (s2, { status := 200, success := true, verified := result.verified })

/-- Sum of the severity deductions of an event log (the spec's
"sum of per-event deductions"). -/
def sumDeds (events : List PEvent) : Int :=
  (events.map (fun e => deduction e.severity)).sum

/-! ### Live-interview session lifecycle (src/routes/resume.js)

The `liveInterviewSessions` map and the POST /join, /end, /snapshot and
/proctoring-event handlers.  Status values are the raw strings of the
source (`scheduled`, `waiting`, `in-progress`, `completed`). -/

/-- A participant pushed by POST /join/:sessionId. -/
structure LParticipant where
  id : String
  name : Option String
  role : Option String
  joinedAt : Nat
  deriving Repr, DecidableEq

/-- A code snapshot pushed by POST /snapshot/:sessionId. -/
structure CodeSnap where
  code : Option String
  language : Option String
  timestamp : Nat
  deriving Repr, DecidableEq

/-- The fields of a live-interview session record touched by the
lifecycle handlers (creation fills `status := "scheduled"`,
`participants := []`, `startedAt := null`, empty logs). -/
structure LSession where
  accessCode : String
  status : String
  participants : List LParticipant
  startedAt : Option Nat
  endedAt : Option Nat
  codeSnapshots : List CodeSnap
  proctoringEvents : List (Option String × Nat)
  feedback : Option (Option String × Option String)
  deriving Repr, DecidableEq

abbrev LSessions := List (String × LSession)

/-- A fresh session as created by POST /create. -/
def freshSession (accessCode : String) : LSession :=
  { accessCode := accessCode, status := "scheduled", participants := [],
    startedAt := none, endedAt := none, codeSnapshots := [],
    proctoringEvents := [], feedback := none }

/-- POST /join/:sessionId — 404 on unknown id, 403 on access-code
mismatch; otherwise pushes the participant, promotes `scheduled` to
`waiting`, and once both a `recruiter`-role and a `candidate`-role
participant are present (and the status is not already `in-progress`)
sets `in-progress` and records `startedAt`. -/
def joinT (st : LSessions) (sessionId : String) (name role code : Option String)
    (pid : String) (now : Nat) : LSessions × Nat :=
  match mapGet st sessionId with
  | none => (st, 404)
  | some session =>
      if ¬ (code = some session.accessCode) then (st, 403)
      else
        let participant : LParticipant :=
          { id := pid, name := name, role := role, joinedAt := now }
        let s1 := { session with participants := session.participants ++ [participant] }
        let s2 := if s1.status = "scheduled" then { s1 with status := "waiting" } else s1
        let hasRecruiter := s2.participants.any (fun p => p.role = some "recruiter")
        let hasCandidate := s2.participants.any (fun p => p.role = some "candidate")
        let s3 :=
          if hasRecruiter && hasCandidate && ¬ (s2.status = "in-progress") then
            { s2 with status := "in-progress", startedAt := some now }
          else s2
        (mapSet st sessionId s3, 200)

/-- POST /end/:sessionId — 404 on unknown id; otherwise unconditionally
sets `status := "completed"`, `endedAt` and `feedback`. -/
def endT (st : LSessions) (sessionId : String) (feedback notes : Option String)
    (now : Nat) : LSessions × Nat :=
  match mapGet st sessionId with
  | none => (st, 404)
  | some session =>
      let s1 :=
        { session with
          status := "completed"
          endedAt := some now
          feedback := some (feedback, notes) }
      (mapSet st sessionId s1, 200)

/-- POST /snapshot/:sessionId — 404 on unknown id; otherwise pushes a
code snapshot (a falsy body timestamp is replaced by `new Date()`). -/
def snapshotT (st : LSessions) (sessionId : String) (code language : Option String)
    (timestamp : Option Nat) (now : Nat) : LSessions × Nat :=
  match mapGet st sessionId with
  | none => (st, 404)
  | some session =>
      let ts := match timestamp with
        | some v => if v = 0 then now else v
        | none => now
      let s1 :=
        { session with
          codeSnapshots := session.codeSnapshots ++
            [{ code := code, language := language, timestamp := ts }] }
      (mapSet st sessionId s1, 200)

/-- POST /proctoring-event/:sessionId — 404 on unknown id; otherwise
pushes `{...event, timestamp: new Date()}` (the event payload is
opaque here). -/
def proctorEventT (st : LSessions) (sessionId : String) (event : Option String)
    (now : Nat) : LSessions × Nat :=
  match mapGet st sessionId with
  | none => (st, 404)
  | some session =>
      let s1 :=
        { session with
          proctoringEvents := session.proctoringEvents ++ [(event, now)] }
      (mapSet st sessionId s1, 200)

/-- Status of the session `sessionId` in `st` (for stating theorems). -/
def statusOf (st : LSessions) (sessionId : String) : Option String :=
  (mapGet st sessionId).map (fun s => s.status)

def startedAtOf (st : LSessions) (sessionId : String) : Option (Option Nat) :=
  (mapGet st sessionId).map (fun s => s.startedAt)

/-! ### Socket room registry and collaborative state (src/socket/handlers.js)

`liveInterviewRooms` maps a session id (a `data` field, hence possibly
`undefined`, embedded as `Option String`) to a room.  Participants and
screen shares are keyed by socket id (always a `String`). -/

structure SParticipant where
  id : Option String
  userName : Option String
  role : Option String
  cameras : Bool × Bool
  joinedAt : Nat
  deriving Repr, DecidableEq

structure CursorInfo where
  cursorPosition : Option String
  selection : Option String
  deriving Repr, DecidableEq

structure SCodeState where
  code : Option String
  language : Option String
  cursorPositions : List (String × CursorInfo)
  deriving Repr, DecidableEq

structure ScreenShare where
  streamType : Option String
  startedAt : Nat
  deriving Repr, DecidableEq

structure RoomSettings where
  enableChat : Bool
  enableScreenShare : Bool
  enableCodeExecution : Bool
  deriving Repr, DecidableEq

structure Room where
  participants : List (String × SParticipant)
  codeState : SCodeState
  screenShares : List (String × ScreenShare)
  whiteboard : List (Option String)
  settings : RoomSettings
  deriving Repr, DecidableEq

/-- The room created on first join: empty participants, code `''` in
`javascript`, no screen shares, empty whiteboard, all settings on. -/
def emptyRoom : Room :=
  { participants := [],
    codeState := { code := some "", language := some "javascript", cursorPositions := [] },
    screenShares := [], whiteboard := [],
    settings := { enableChat := true, enableScreenShare := true,
                  enableCodeExecution := true } }

structure SState where
  rooms : List (Option String × Room)
  deriving Repr, DecidableEq

def emptySState : SState := { rooms := [] }

/-- The `room-state` message emitted to a participant right after it is
added by `join-live-interview`: participants, code state, screen shares
and settings — and nothing else. -/
structure RoomStateMsg where
  participants : List SParticipant
  codeState : SCodeState
  screenShares : List (String × ScreenShare)
  settings : RoomSettings
  deriving Repr, DecidableEq

def roomStateSnapshot (room : Room) : RoomStateMsg :=
  { participants := room.participants.map (fun p => p.2),
    codeState := room.codeState,
    screenShares := room.screenShares,
    settings := room.settings }

/-- `join-live-interview`: create the room if absent, insert the
participant under the socket id, and return the new state together with
the `room-state` snapshot emitted to the joiner. -/
def joinLive (s : SState) (sessionId : Option String) (sock : String)
    (pid userName role : Option String) (cams : Option (Bool × Bool)) (now : Nat) :
    SState × RoomStateMsg :=
  let rooms1 := if mapHas s.rooms sessionId then s.rooms else mapSet s.rooms sessionId emptyRoom
  let room := (mapGet rooms1 sessionId).getD emptyRoom
  let participant : SParticipant :=
    { id := pid, userName := userName, role := role,
      cameras := cams.getD (true, false), joinedAt := now }
  let room1 := { room with participants := mapSet room.participants sock participant }
  ({ rooms := mapSet rooms1 sessionId room1 }, roomStateSnapshot room1)

/-- `handleLiveInterviewLeave`: only when the room exists and holds the
socket, delete the socket from participants and screen shares. -/
def leaveLive (s : SState) (sessionId : Option String) (sock : String) : SState :=
  match mapGet s.rooms sessionId with
  | none => s
  | some room =>
      if mapHas room.participants sock then
        let room1 :=
          { room with
            participants := mapDelete room.participants sock
            screenShares := mapDelete room.screenShares sock }
        { rooms := mapSet s.rooms sessionId room1 }
      else s

/-- The per-room effect of a socket disconnecting: only when the room
holds the socket, delete it from participants and screen shares. -/
def disconnectRoom (sock : String) (r : Room) : Room :=
  if mapHas r.participants sock then
    { r with
      participants := mapDelete r.participants sock
      screenShares := mapDelete r.screenShares sock }
  else r

/-- `disconnect`: sweep every room for the socket. -/
def disconnectLive (s : SState) (sock : String) : SState :=
  { rooms := s.rooms.map (fun p => (p.1, disconnectRoom sock p.2)) }

/-- `live-code-update`: ignored when the room does not exist; otherwise
last-writer-wins replacement of code/language plus the sender's cursor. -/
def codeUpdate (s : SState) (sessionId : Option String) (sock : String)
    (code language cursorPosition selection : Option String) : SState :=
  match mapGet s.rooms sessionId with
  | none => s
  | some room =>
      let cs : SCodeState :=
        { code := code
          language := language
          cursorPositions := mapSet room.codeState.cursorPositions sock
            { cursorPosition := cursorPosition, selection := selection } }
      { rooms := mapSet s.rooms sessionId { room with codeState := cs } }

/-- `whiteboard-draw`: push the stroke onto the room's whiteboard log
when the room exists (the broadcast carries the stroke separately). -/
def whiteboardDraw (s : SState) (sessionId : Option String)
    (drawData : Option String) : SState :=
  match mapGet s.rooms sessionId with
  | none => s
  | some room =>
      { rooms := mapSet s.rooms sessionId { room with whiteboard := room.whiteboard ++ [drawData] } }

/-- `whiteboard-clear`: reset the room's whiteboard log when the room
exists. -/
def whiteboardClear (s : SState) (sessionId : Option String) : SState :=
  match mapGet s.rooms sessionId with
  | none => s
  | some room => { rooms := mapSet s.rooms sessionId { room with whiteboard := [] } }

/-- Membership of endpoint `e` in the participant map of room `sid`. -/
def roomHas (s : SState) (sid : Option String) (e : String) : Bool :=
  match mapGet s.rooms sid with
  | some r => mapHas r.participants e
  | none => false

/-- The participant map of room `sid` (`none` when the room is absent). -/
def roomParticipants (s : SState) (sid : Option String) :
    Option (List (String × SParticipant)) :=
  (mapGet s.rooms sid).map (fun r => r.participants)

def roomWhiteboard (s : SState) (sid : Option String) : Option (List (Option String)) :=
  (mapGet s.rooms sid).map (fun r => r.whiteboard)

/-- The room-membership operations of the claim: join, explicit leave,
disconnect. -/
inductive LiveOp where
  | join (sessionId : Option String) (sock : String) (pid userName role : Option String)
      (cams : Option (Bool × Bool)) (now : Nat)
  | leave (sessionId : Option String) (sock : String)
  | disc (sock : String)
  deriving Repr, DecidableEq

def stepOp (s : SState) : LiveOp → SState
  | .join sessionId sock pid userName role cams now =>
      (joinLive s sessionId sock pid userName role cams now).1
  | .leave sessionId sock => leaveLive s sessionId sock
  | .disc sock => disconnectLive s sock

def runOps (ops : List LiveOp) : SState :=
  ops.foldl stepOp emptySState

/-- The specification-side presence predicate: `e` is present in room
`sid` after an operation when the operation was a join of `e` to `sid`,
and absent right after a leave of `e` from `sid` or a disconnect of `e`;
other operations do not affect it. -/
def specPresentStep (sid : Option String) (e : String) (b : Bool) : LiveOp → Bool
  | .join sid1 sock _ _ _ _ _ => if sid1 = sid ∧ sock = e then true else b
  | .leave sid1 sock => if sid1 = sid ∧ sock = e then false else b
  | .disc sock => if sock = e then false else b

def specPresent (ops : List LiveOp) (sid : Option String) (e : String) : Bool :=
  ops.foldl (specPresentStep sid e) false

/-! ### Helper lemmas about the integrity-score fold -/

theorem foldl_scoreStep_fst (events : List PEvent) :
    ∀ (a : Int) (b : List (String × Nat)),
      (events.foldl scoreStep (a, b)).1 = a - sumDeds events := by
  induction events with
  | nil =>
      intro a b
      simp [sumDeds]
  | cons e t ih =>
      intro a b
      simp only [List.foldl_cons, scoreStep]
      rw [ih]
      simp only [sumDeds, List.map_cons, List.sum_cons]
      omega

theorem deduction_nonneg (sev : Option String) : 0 ≤ deduction sev := by
  unfold deduction
  split
  · norm_num
  · split
    · norm_num
    · split
      · norm_num
      · split <;> norm_num

theorem sumDeds_nonneg (events : List PEvent) : 0 ≤ sumDeds events := by
  induction events with
  | nil => simp [sumDeds]
  | cons e t ih =>
      have hd := deduction_nonneg e.severity
      simp only [sumDeds, List.map_cons, List.sum_cons] at *
      omega

theorem sumDeds_append (es : List PEvent) (e : PEvent) :
    sumDeds (es ++ [e]) = sumDeds es + deduction e.severity := by
  simp [sumDeds]

theorem scoreBreakdown_append (es : List PEvent) (e : PEvent) :
    scoreBreakdown (es ++ [e]) = scoreStep (scoreBreakdown es) e := by
  simp [scoreBreakdown, List.foldl_append]

theorem getScore_score (s : PState) (id : String) :
    (getScoreT s id).2.2.score =
      max 0 (100 - sumDeds ((mapGet s.proctoringEvents (some id)).getD [])) := by
  simp [getScoreT, scoreBreakdown, foldl_scoreStep_fst]

theorem getScore_totalEvents (s : PState) (id : String) :
    (getScoreT s id).2.2.totalEvents =
      ((mapGet s.proctoringEvents (some id)).getD []).length := rfl

theorem postEvent_log_self (s : PState) (interviewId eventType severity details : Option String)
    (now : Nat) :
    mapGet (postEventT s interviewId eventType severity details now).1.proctoringEvents
        interviewId =
      some ((mapGet s.proctoringEvents interviewId).getD [] ++
        [{ eventType := eventType, severity := severity, details := details,
           timestamp := now }]) := by
  simp [postEventT, mapGet_push_self]

theorem postEvent_log_other (s : PState) (interviewId eventType severity details : Option String)
    (now : Nat) (k : Option String) (h : k ≠ interviewId) :
    mapGet (postEventT s interviewId eventType severity details now).1.proctoringEvents k =
      mapGet s.proctoringEvents k := by
  simp [postEventT, mapGet_push_ne _ _ _ _ h]

/-! ### Concrete proctoring scenarios from the spec -/

/-- Scenario A of the spec: events of severities low then critical
recorded for session S1. -/
def scenarioA : PState :=
  (postEventT
    (postEventT emptyPState (some "S1") (some "tab-switch") (some "low") none 0).1
    (some "S1") (some "copy-paste") (some "critical") none 1).1

/-- Scenario B of the spec: events of severities medium, medium, high. -/
def scenarioB : PState :=
  (postEventT
    (postEventT
      (postEventT emptyPState (some "S2") (some "tab-switch") (some "medium") none 0).1
      (some "S2") (some "fullscreen-exit") (some "medium") none 1).1
    (some "S2") (some "multiple-faces") (some "high") none 2).1

/-! ### Claim theorems: proctoring pipeline -/

/-- C1: for every state of the event store and every session id, the
integrity score returned by GET /proctoring/:interviewId/score equals
max(0, 100 − sum of per-event deductions), with the deduction table
low 2 / medium 5 / high 10 / critical 20; in particular recording the
event sequence [low, critical] for session S1 yields score 78, and
[medium, medium, high] yields score 80. -/
theorem integrity_score_is_floored_deduction_sum :
    (∀ (s : PState) (id : String),
      (getScoreT s id).2.2.score =
        max 0 (100 - sumDeds ((mapGet s.proctoringEvents (some id)).getD [])))
    ∧ (getScoreT scenarioA "S1").2.2.score = 78
    ∧ (getScoreT scenarioB "S2").2.2.score = 80 :=
  ⟨getScore_score, by decide, by decide⟩

/-- C2: the score computation of GET /proctoring/:interviewId/score is a
pure function of the event log: it leaves the store untouched, so a
second call with no intervening POST /event returns the identical
response; appending any event (to any session) never increases the
score; and the score always lies in [0, 100]. -/
theorem score_pure_monotone_bounded (s : PState) (id : String)
    (interviewId eventType severity details : Option String) (now : Nat) :
    ((getScoreT s id).1 = s
      ∧ (getScoreT (getScoreT s id).1 id).2 = (getScoreT s id).2)
    ∧ (getScoreT (postEventT s interviewId eventType severity details now).1 id).2.2.score ≤
        (getScoreT s id).2.2.score
    ∧ (0 ≤ (getScoreT s id).2.2.score ∧ (getScoreT s id).2.2.score ≤ 100) := by
  refine ⟨⟨rfl, rfl⟩, ?_, ?_, ?_⟩
  · by_cases h : interviewId = some id
    · subst h
      rw [getScore_score, getScore_score, postEvent_log_self]
      simp only [Option.getD_some]
      rw [sumDeds_append]
      dsimp only
      have hd := deduction_nonneg severity
      exact max_le_max le_rfl (by omega)
    · rw [getScore_score, getScore_score,
        postEvent_log_other s interviewId eventType severity details now (some id)
          (Ne.symm h)]
  · rw [getScore_score]
    exact le_max_left 0 _
  · rw [getScore_score]
    have hs := sumDeds_nonneg ((mapGet s.proctoringEvents (some id)).getD [])
    exact max_le (by norm_num) (by omega)

/-- C10: an event whose severity is outside low/medium/high/critical
contributes zero deduction (the score is unchanged by appending it)
while still being counted in totalEvents and in the per-event-type
breakdown of GET /proctoring/:interviewId/score. -/
theorem unknown_severity_counted_but_zero_deduction (s : PState) (id : String)
    (eventType severity details : Option String) (now : Nat)
    (h1 : ¬ severity = some "low") (h2 : ¬ severity = some "medium")
    (h3 : ¬ severity = some "high") (h4 : ¬ severity = some "critical") :
    ((getScoreT (postEventT s (some id) eventType severity details now).1 id).2.2.score =
        (getScoreT s id).2.2.score)
    ∧ ((getScoreT (postEventT s (some id) eventType severity details now).1 id).2.2.totalEvents
        = (getScoreT s id).2.2.totalEvents + 1)
    ∧ (mapGet
        (getScoreT (postEventT s (some id) eventType severity details now).1 id).2.2.breakdown
          (propKey eventType) =
        some ((mapGet (getScoreT s id).2.2.breakdown (propKey eventType)).getD 0 + 1)) := by
  have hlog := postEvent_log_self s (some id) eventType severity details now
  have hded : deduction severity = 0 := by
    simp [deduction, h1, h2, h3, h4]
  refine ⟨?_, ?_, ?_⟩
  · rw [getScore_score, getScore_score, hlog]
    simp only [Option.getD_some]
    rw [sumDeds_append, hded]
    simp
  · rw [getScore_totalEvents, getScore_totalEvents, hlog]
    simp
  · show mapGet (scoreBreakdown ((mapGet (postEventT s (some id) eventType severity details
        now).1.proctoringEvents (some id)).getD [])).2 (propKey eventType) = _
    rw [hlog]
    simp only [Option.getD_some]
    rw [scoreBreakdown_append]
    simp only [scoreStep]
    rw [mapGet_set_self]
    rfl

/-- Witness for C10 at a concrete unknown severity. -/
theorem unknown_severity_counted_but_zero_deduction_witness :
    (¬ (some "weird" : Option String) = some "low")
    ∧ ((getScoreT (postEventT emptyPState (some "S") (some "tab-switch") (some "weird")
          none 0).1 "S").2.2.score = (getScoreT emptyPState "S").2.2.score
      ∧ ((getScoreT (postEventT emptyPState (some "S") (some "tab-switch") (some "weird")
            none 0).1 "S").2.2.totalEvents = (getScoreT emptyPState "S").2.2.totalEvents + 1)
      ∧ (mapGet (getScoreT (postEventT emptyPState (some "S") (some "tab-switch")
            (some "weird") none 0).1 "S").2.2.breakdown (propKey (some "tab-switch")) =
          some ((mapGet (getScoreT emptyPState "S").2.2.breakdown
            (propKey (some "tab-switch"))).getD 0 + 1))) :=
  ⟨by decide,
   unknown_severity_counted_but_zero_deduction emptyPState "S" (some "tab-switch")
     (some "weird") none 0 (by decide) (by decide) (by decide) (by decide)⟩

/-- C8 (corrected): on the proctoring read paths only
GET /proctoring/dashboard/:interviewId answers an unknown id with 404;
GET /proctoring/:interviewId answers 200 with an empty event list and
GET /proctoring/:interviewId/score answers 200 with score 100,
totalEvents 0 and an empty breakdown. -/
theorem unknown_id_read_path_statuses (s : PState) (id : String)
    (he : mapGet s.proctoringEvents (some id) = none)
    (hs : mapGet s.activeSessions (some id) = none) :
    (getEventsT s id).2 = (200, [])
    ∧ (getScoreT s id).2 =
        (200, { score := 100, totalEvents := 0, breakdown := [] })
    ∧ (getDashboardT s id).2 = (404, none) := by
  refine ⟨?_, ?_, ?_⟩
  · simp [getEventsT, he]
  · simp [getScoreT, he, scoreBreakdown, List.foldl_nil]
  · simp [getDashboardT, hs]

/-- Witness for C8 (corrected) on the empty store. -/
theorem unknown_id_read_path_statuses_witness :
    (mapGet emptyPState.proctoringEvents (some "ghost") = none)
    ∧ ((getEventsT emptyPState "ghost").2 = (200, [])
      ∧ (getScoreT emptyPState "ghost").2 =
          (200, { score := 100, totalEvents := 0, breakdown := [] })
      ∧ (getDashboardT emptyPState "ghost").2 = (404, none)) :=
  ⟨by decide, unknown_id_read_path_statuses emptyPState "ghost" (by decide) (by decide)⟩

/-- Counterexample to C8 as stated: the id "ghost" was never registered,
yet GET /proctoring/:interviewId/score and GET /proctoring/:interviewId
answer it with HTTP 200 (score 100 / empty list), not 404. -/
theorem unknown_id_score_read_not_404 :
    (getScoreT emptyPState "ghost").2.1 = 200
    ∧ ¬ (getScoreT emptyPState "ghost").2.1 = 404
    ∧ (getEventsT emptyPState "ghost").2.1 = 200
    ∧ ¬ (getEventsT emptyPState "ghost").2.1 = 404 := by
  decide

/-- C9 (corrected): POST /proctoring/verify-identity rejects a request
with missing (or empty) userId or image synchronously with status 400
and no state mutation, but POST /proctoring/event performs no
required-field validation: it appends the event to the log and answers
200 regardless of which fields are present. -/
theorem verify_rejects_but_event_never_validates (s : PState)
    (interviewId userId image : Option String) (ext : Option VerifyResult)
    (eventType severity details : Option String) (now : Nat)
    (h : (falsyStr userId || falsyStr image) = true) :
    verifyIdentityT s interviewId userId image ext now =
      (s, { status := 400, success := false, verified := false })
    ∧ (mapGet (postEventT s interviewId eventType severity details now).1.proctoringEvents
          interviewId =
        some ((mapGet s.proctoringEvents interviewId).getD [] ++
          [{ eventType := eventType, severity := severity, details := details,
             timestamp := now }])
      ∧ (postEventT s interviewId eventType severity details now).2.1 = 200) := by
  refine ⟨?_, postEvent_log_self s interviewId eventType severity details now, rfl⟩
  unfold verifyIdentityT
  rw [if_pos h]

/-- Witness for C9 (corrected): a request with no userId at all. -/
theorem verify_rejects_but_event_never_validates_witness :
    ((falsyStr none || falsyStr (some "img")) = true)
    ∧ (verifyIdentityT emptyPState (some "S") none (some "img") none 0 =
        (emptyPState, { status := 400, success := false, verified := false })
      ∧ (mapGet (postEventT emptyPState (some "S") none none none 0).1.proctoringEvents
            (some "S") =
          some ((mapGet emptyPState.proctoringEvents (some "S")).getD [] ++
            [{ eventType := none, severity := none, details := none, timestamp := 0 }])
        ∧ (postEventT emptyPState (some "S") none none none 0).2.1 = 200)) :=
  ⟨by decide,
   verify_rejects_but_event_never_validates emptyPState (some "S") none (some "img") none
     none none none 0 (by decide)⟩

/-- Counterexample to C9 as stated: a POST /proctoring/event request with
every required field absent is not rejected — an event is appended under
the `undefined` key and the handler answers 200 with success. -/
theorem missing_fields_event_still_appended :
    (postEventT emptyPState none none none none 0).1.proctoringEvents =
      [(none, [{ eventType := none, severity := none, details := none, timestamp := 0 }])]
    ∧ (postEventT emptyPState none none none none 0).2.1 = 200
    ∧ ¬ (postEventT emptyPState none none none none 0).1 = emptyPState := by
  decide

/-! ### Helper lemmas about the socket room registry -/

theorem mapGet_mapVal {κ α β : Type} [DecidableEq κ] (m : List (κ × α)) (f : α → β) (k : κ) :
    mapGet (m.map (fun p => (p.1, f p.2))) k = (mapGet m k).map f := by
  induction m with
  | nil => simp [mapGet]
  | cons hd t ih =>
      by_cases h : hd.1 = k
      · simp [mapGet, h]
      · simp [mapGet, h, ih]

/-- The `if (!rooms.has(id)) rooms.set(id, fresh); rooms.get(id)` idiom
of join-live-interview, read back at the same key. -/
theorem ensure_get (rooms : List (Option String × Room)) (sid1 : Option String) :
    mapGet (if mapHas rooms sid1 then rooms else mapSet rooms sid1 emptyRoom) sid1 =
      some ((mapGet rooms sid1).getD emptyRoom) := by
  cases hg : mapGet rooms sid1 with
  | some r => simp [mapHas, hg]
  | none => simp [mapHas, hg, mapGet_set_self]

theorem ensure_get_other (rooms : List (Option String × Room)) (sid1 sid : Option String)
    (hne : sid ≠ sid1) :
    mapGet (if mapHas rooms sid1 then rooms else mapSet rooms sid1 emptyRoom) sid =
      mapGet rooms sid := by
  by_cases h : mapHas rooms sid1 <;> simp [h, mapGet_set_ne _ _ _ _ hne]

theorem roomHas_join (s : SState) (sid1 : Option String) (sock : String)
    (pid un rl : Option String) (cams : Option (Bool × Bool)) (now : Nat)
    (sid : Option String) (e : String) :
    roomHas (joinLive s sid1 sock pid un rl cams now).1 sid e =
      (if sid1 = sid ∧ sock = e then true else roomHas s sid e) := by
  unfold joinLive roomHas
  dsimp only
  by_cases hsid : sid1 = sid
  · subst hsid
    rw [mapGet_set_self, ensure_get]
    dsimp only
    rw [mapHas_set]
    cases hg : mapGet s.rooms sid1 with
    | some r =>
        simp only [hg, Option.getD_some]
        by_cases hes : e = sock
        · simp [hes]
        · simp [hes, Ne.symm hes]
    | none =>
        simp only [hg]
        by_cases hes : e = sock
        · simp [hes]
        · simp [hes, Ne.symm hes, emptyRoom, mapHas, mapGet]
  · have hne : sid ≠ sid1 := Ne.symm hsid
    rw [mapGet_set_ne _ _ _ _ hne, ensure_get_other _ _ _ hne]
    simp [hsid]

theorem roomHas_leave (s : SState) (sid1 : Option String) (sock : String)
    (sid : Option String) (e : String) :
    roomHas (leaveLive s sid1 sock) sid e =
      (if sid1 = sid ∧ sock = e then false else roomHas s sid e) := by
  unfold leaveLive roomHas
  cases hg : mapGet s.rooms sid1 with
  | none =>
      by_cases hsid : sid1 = sid
      · subst hsid
        simp [hg]
      · simp [hsid]
  | some room =>
      dsimp only
      by_cases hp : mapHas room.participants sock = true
      · rw [if_pos hp]
        dsimp only
        by_cases hsid : sid1 = sid
        · subst hsid
          rw [mapGet_set_self]
          simp only [hg]
          rw [mapHas_delete]
          by_cases hes : e = sock
          · simp [hes]
          · simp [hes, Ne.symm hes]
        · rw [mapGet_set_ne _ _ _ _ (Ne.symm hsid)]
          simp [hsid]
      · rw [if_neg hp]
        have hp2 : mapHas room.participants sock = false := by
          simpa using hp
        by_cases hsid : sid1 = sid
        · subst hsid
          simp only [hg]
          by_cases hes : sock = e
          · subst hes
            simp [hp2]
          · simp [hes, Ne.symm hes]
        · simp [hsid]

theorem roomHas_disc (s : SState) (sock : String) (sid : Option String) (e : String) :
    roomHas (disconnectLive s sock) sid e =
      (if sock = e then false else roomHas s sid e) := by
  unfold disconnectLive roomHas
  rw [mapGet_mapVal]
  cases hg : mapGet s.rooms sid with
  | none => simp
  | some r =>
      unfold disconnectRoom
      simp only [Option.map_some']
      by_cases hp : mapHas r.participants sock = true
      · rw [if_pos hp]
        dsimp only
        rw [mapHas_delete]
        by_cases hes : e = sock
        · simp [hes]
        · simp [hes, Ne.symm hes]
      · rw [if_neg hp]
        have hp2 : mapHas r.participants sock = false := by simpa using hp
        by_cases hes : sock = e
        · subst hes
          simp [hp2]
        · simp [hes]

theorem roomHas_stepOp (s : SState) (op : LiveOp) (sid : Option String) (e : String) :
    roomHas (stepOp s op) sid e = specPresentStep sid e (roomHas s sid e) op := by
  cases op with
  | join sid1 sock pid un rl cams now =>
      exact roomHas_join s sid1 sock pid un rl cams now sid e
  | leave sid1 sock => exact roomHas_leave s sid1 sock sid e
  | disc sock => exact roomHas_disc s sock sid e

theorem roomHas_foldl (ops : List LiveOp) (s0 : SState) (sid : Option String) (e : String) :
    roomHas (ops.foldl stepOp s0) sid e =
      ops.foldl (specPresentStep sid e) (roomHas s0 sid e) := by
  induction ops generalizing s0 with
  | nil => rfl
  | cons op t ih =>
      rw [List.foldl_cons, List.foldl_cons, ih, roomHas_stepOp]

theorem roomParticipants_join_other (s : SState) (sid1 : Option String) (sock : String)
    (pid un rl : Option String) (cams : Option (Bool × Bool)) (now : Nat)
    (sid : Option String) (hne : sid ≠ sid1) :
    roomParticipants (joinLive s sid1 sock pid un rl cams now).1 sid =
      roomParticipants s sid := by
  unfold joinLive roomParticipants
  dsimp only
  rw [mapGet_set_ne _ _ _ _ hne, ensure_get_other _ _ _ hne]

theorem roomParticipants_leave_other (s : SState) (sid1 : Option String) (sock : String)
    (sid : Option String) (hne : sid ≠ sid1) :
    roomParticipants (leaveLive s sid1 sock) sid = roomParticipants s sid := by
  unfold leaveLive roomParticipants
  cases hg : mapGet s.rooms sid1 with
  | none => rfl
  | some room =>
      by_cases hp : mapHas room.participants sock = true
      · simp only [hp, if_true]
        rw [mapGet_set_ne _ _ _ _ hne]
      · simp [hp]

/-! ### Claim theorems: socket room registry and synchronizer -/

/-- C3: after any sequence of join-live-interview, leave-live-interview
and disconnect operations (starting from no rooms), an endpoint is in a
room's participant map exactly when it joined that room and has not
since left that room or disconnected; moreover a join or leave
addressed to a different room leaves the room's participant map
unchanged. -/
theorem room_membership_exact (ops : List LiveOp) (s : SState)
    (sid sid1 : Option String) (e sock : String) (pid un rl : Option String)
    (cams : Option (Bool × Bool)) (now : Nat) (hne : sid ≠ sid1) :
    roomHas (runOps ops) sid e = specPresent ops sid e
    ∧ roomParticipants (stepOp s (LiveOp.join sid1 sock pid un rl cams now)) sid =
        roomParticipants s sid
    ∧ roomParticipants (stepOp s (LiveOp.leave sid1 sock)) sid = roomParticipants s sid := by
  refine ⟨?_, ?_, ?_⟩
  · unfold runOps specPresent
    rw [roomHas_foldl]
    rfl
  · exact roomParticipants_join_other s sid1 sock pid un rl cams now sid hne
  · exact roomParticipants_leave_other s sid1 sock sid hne

/-- Witness for C3: a join to room a, a leave from room b, and isolation
between the two rooms. -/
theorem room_membership_exact_witness :
    ((some "a" : Option String) ≠ some "b")
    ∧ (roomHas (runOps [LiveOp.join (some "a") "s1" none none none none 0,
          LiveOp.leave (some "b") "s1"]) (some "a") "s1" =
        specPresent [LiveOp.join (some "a") "s1" none none none none 0,
          LiveOp.leave (some "b") "s1"] (some "a") "s1"
      ∧ roomParticipants (stepOp emptySState
            (LiveOp.join (some "b") "s2" none none none none 1)) (some "a") =
          roomParticipants emptySState (some "a")
      ∧ roomParticipants (stepOp emptySState (LiveOp.leave (some "b") "s2")) (some "a") =
          roomParticipants emptySState (some "a")) :=
  ⟨by decide,
   room_membership_exact [LiveOp.join (some "a") "s1" none none none none 0,
       LiveOp.leave (some "b") "s1"] emptySState (some "a") (some "b") "s1" "s2"
     none none none none 1 (by decide)⟩

/-- The payload of one `live-code-update` message. -/
structure CodeUpd where
  sock : String
  code : Option String
  language : Option String
  cursorPosition : Option String
  selection : Option String
  deriving Repr, DecidableEq

def applyUpd (sid : Option String) (st : SState) (w : CodeUpd) : SState :=
  codeUpdate st sid w.sock w.code w.language w.cursorPosition w.selection

theorem applyUpd_preserves_room (s : SState) (sid : Option String) (w : CodeUpd) :
    mapHas (applyUpd sid s w).rooms sid = mapHas s.rooms sid := by
  unfold applyUpd codeUpdate
  cases hg : mapGet s.rooms sid with
  | none => rfl
  | some room =>
      dsimp only
      simp [mapHas, mapGet_set_self, hg]

theorem foldl_upds_preserves_room (us : List CodeUpd) (s : SState) (sid : Option String) :
    mapHas ((us.foldl (applyUpd sid) s)).rooms sid = mapHas s.rooms sid := by
  induction us generalizing s with
  | nil => rfl
  | cons w t ih => rw [List.foldl_cons, ih, applyUpd_preserves_room]

theorem joinLive_snapshot_after_upd (s1 : SState) (sid : Option String) (w : CodeUpd)
    (sock : String) (pid un rl : Option String) (cams : Option (Bool × Bool)) (now : Nat)
    (r : Room) (hrg : mapGet s1.rooms sid = some r) :
    (joinLive (applyUpd sid s1 w) sid sock pid un rl cams now).2.codeState.code = w.code
    ∧ (joinLive (applyUpd sid s1 w) sid sock pid un rl cams now).2.codeState.language =
        w.language := by
  unfold applyUpd codeUpdate
  rw [hrg]
  dsimp only
  unfold joinLive
  dsimp only
  rw [ensure_get, mapGet_set_self]
  exact ⟨rfl, rfl⟩

/-- C4: after a room exists, the room-state snapshot emitted to a joiner
immediately after any nonempty sequence of live-code-update messages
carries exactly the last update's code text and language
(last-writer-wins). -/
theorem code_update_last_writer_wins (s : SState) (sid : Option String)
    (us : List CodeUpd) (w : CodeUpd) (sock : String) (pid un rl : Option String)
    (cams : Option (Bool × Bool)) (now : Nat) (hr : mapHas s.rooms sid = true) :
    (joinLive ((us ++ [w]).foldl (applyUpd sid) s) sid sock pid un rl cams
        now).2.codeState.code = w.code
    ∧ (joinLive ((us ++ [w]).foldl (applyUpd sid) s) sid sock pid un rl cams
        now).2.codeState.language = w.language := by
  rw [List.foldl_append]
  have h1 : mapHas (us.foldl (applyUpd sid) s).rooms sid = true := by
    rw [foldl_upds_preserves_room]
    exact hr
  obtain ⟨r, hrg⟩ : ∃ r, mapGet (us.foldl (applyUpd sid) s).rooms sid = some r := by
    cases hgg : mapGet (us.foldl (applyUpd sid) s).rooms sid with
    | none => simp [mapHas, hgg] at h1
    | some r => exact ⟨r, rfl⟩
  simp only [List.foldl_cons, List.foldl_nil]
  exact joinLive_snapshot_after_upd _ sid w sock pid un rl cams now r hrg

/-- First concrete update used by the C4 witness. -/
def updA : CodeUpd :=
  { sock := "sA", code := some "x", language := some "js", cursorPosition := none, selection := none }

/-- Second concrete update used by the C4 witness. -/
def updB : CodeUpd :=
  { sock := "sB", code := some "y", language := some "py", cursorPosition := none, selection := none }

/-- Witness for C4: one room created by a join, two updates, the second
one wins. -/
theorem code_update_last_writer_wins_witness :
    (mapHas (joinLive emptySState (some "r") "sA" none none none none 0).1.rooms
        (some "r") = true)
    ∧ ((joinLive (([updA] ++ [updB]).foldl (applyUpd (some "r"))
          (joinLive emptySState (some "r") "sA" none none none none 0).1)
        (some "r") "sB" none none none none 1).2.codeState.code = some "y"
      ∧ (joinLive (([updA] ++ [updB]).foldl (applyUpd (some "r"))
          (joinLive emptySState (some "r") "sA" none none none none 0).1)
        (some "r") "sB" none none none none 1).2.codeState.language = some "py") :=
  ⟨by decide,
   code_update_last_writer_wins
     (joinLive emptySState (some "r") "sA" none none none none 0).1 (some "r")
     [updA] updB "sB" none none none none 1 (by decide)⟩

/-- C5 (corrected): a whiteboard-draw appends the stroke to the room's
whiteboard log, but the room-state snapshot emitted to a subsequent
joiner is completely unchanged by the draw — the snapshot consists of
participants, code state, screen shares and settings only, so stored
strokes are never replayed to new joiners. -/
theorem whiteboard_stored_but_not_in_snapshot (s : SState) (sid : Option String)
    (d : Option String) (sock : String) (pid un rl : Option String)
    (cams : Option (Bool × Bool)) (now : Nat) :
    roomWhiteboard (whiteboardDraw s sid d) sid =
      (roomWhiteboard s sid).map (fun wb => wb ++ [d])
    ∧ (joinLive (whiteboardDraw s sid d) sid sock pid un rl cams now).2 =
        (joinLive s sid sock pid un rl cams now).2 := by
  constructor
  · unfold whiteboardDraw roomWhiteboard
    cases hg : mapGet s.rooms sid with
    | none => simp [hg]
    | some room =>
        dsimp only
        rw [mapGet_set_self]
        simp [hg]
  · unfold whiteboardDraw
    cases hg : mapGet s.rooms sid with
    | none => rfl
    | some room =>
        dsimp only
        unfold joinLive
        dsimp only
        rw [ensure_get, ensure_get, mapGet_set_self, hg]
        rfl

/-- Counterexample to C5 as stated: after sockA joins room r1 and draws a
stroke, the room's whiteboard log holds the stroke, yet the room-state
snapshot sent to the next joiner sockB is byte-for-byte the snapshot of
the identical history without the draw — the snapshot carries no
whiteboard field at all, so it cannot contain the strokes drawn before
the join. -/
theorem whiteboard_stroke_missing_from_join_snapshot :
    roomWhiteboard (whiteboardDraw (joinLive emptySState (some "r1") "sockA" none
        (some "alice") (some "recruiter") none 0).1 (some "r1") (some "stroke1"))
      (some "r1") = some [some "stroke1"]
    ∧ roomWhiteboard (joinLive emptySState (some "r1") "sockA" none (some "alice")
        (some "recruiter") none 0).1 (some "r1") = some []
    ∧ (joinLive (whiteboardDraw (joinLive emptySState (some "r1") "sockA" none
          (some "alice") (some "recruiter") none 0).1 (some "r1") (some "stroke1"))
        (some "r1") "sockB" none (some "bob") (some "candidate") none 1).2 =
      (joinLive (joinLive emptySState (some "r1") "sockA" none (some "alice")
          (some "recruiter") none 0).1
        (some "r1") "sockB" none (some "bob") (some "candidate") none 1).2 := by
  decide

/-! ### Helper lemmas about the session join handler -/

/-- The participant record pushed by POST /join/:sessionId. -/
def mkPart (pid : String) (n role : Option String) (t : Nat) : LParticipant :=
  { id := pid, name := n, role := role, joinedAt := t }

/-- The session-record transformation performed by the accepted branch of
POST /join/:sessionId: push the participant, promote `scheduled` to
`waiting`, then start the interview when a recruiter and a candidate are
both present and it is not already running. -/
def joinStep (sess : LSession) (n role : Option String) (pid : String) (t : Nat) : LSession :=
  let s1 := { sess with participants := sess.participants ++ [mkPart pid n role t] }
  let s2 := if s1.status = "scheduled" then { s1 with status := "waiting" } else s1
  if s2.participants.any (fun p => p.role = some "recruiter")
      && s2.participants.any (fun p => p.role = some "candidate")
      && ¬ (s2.status = "in-progress") then
    { s2 with status := "in-progress", startedAt := some t }
  else s2

theorem joinT_eq_joinStep (st : LSessions) (sessionId : String) (sess : LSession)
    (n role : Option String) (pid : String) (t : Nat)
    (h0 : mapGet st sessionId = some sess) :
    joinT st sessionId n role (some sess.accessCode) pid t =
      (mapSet st sessionId (joinStep sess n role pid t), 200) := by
  unfold joinT joinStep mkPart
  rw [h0]
  simp

theorem joinStep_accessCode (sess : LSession) (n role : Option String) (pid : String)
    (t : Nat) : (joinStep sess n role pid t).accessCode = sess.accessCode := by
  unfold joinStep
  dsimp only
  split <;> split <;> rfl

theorem joinStep_participants (sess : LSession) (n role : Option String) (pid : String)
    (t : Nat) :
    (joinStep sess n role pid t).participants =
      sess.participants ++ [mkPart pid n role t] := by
  unfold joinStep
  dsimp only
  split <;> split <;> rfl

/-- First join of a recruiter into a scheduled session with no candidate
present: the session moves to `waiting` and nothing else changes but the
participant list. -/
theorem joinStep_first_recruiter (sess : LSession) (n : Option String) (pid : String)
    (t : Nat) (hs : sess.status = "scheduled")
    (hnc : sess.participants.any (fun p => p.role = some "candidate") = false) :
    joinStep sess n (some "recruiter") pid t =
      { sess with
        participants := sess.participants ++ [mkPart pid n (some "recruiter") t]
        status := "waiting" } := by
  unfold joinStep
  simp [hs, hnc, mkPart]

/-- Join of a candidate into a waiting session that already holds a
recruiter: the session starts. -/
theorem joinStep_candidate_starts (sess : LSession) (n : Option String) (pid : String)
    (t : Nat) (hw : sess.status = "waiting")
    (hr : sess.participants.any (fun p => p.role = some "recruiter") = true) :
    joinStep sess n (some "candidate") pid t =
      { sess with
        participants := sess.participants ++ [mkPart pid n (some "candidate") t]
        status := "in-progress"
        startedAt := some t } := by
  unfold joinStep
  simp [hw, hr, mkPart]

/-- Join into a session already in progress: only the participant list
grows; the status and start time are untouched. -/
theorem joinStep_in_progress (sess : LSession) (n role : Option String) (pid : String)
    (t : Nat) (hp : sess.status = "in-progress") :
    joinStep sess n role pid t =
      { sess with participants := sess.participants ++ [mkPart pid n role t] } := by
  unfold joinStep
  simp [hp]

/-- Join into a completed session that thereby gains both a recruiter and
a candidate: the status is reset to `in-progress`. -/
theorem joinStep_completed_to_in_progress (sess : LSession) (n role : Option String)
    (pid : String) (t : Nat) (hc : sess.status = "completed")
    (hb1 : (sess.participants ++ [mkPart pid n role t]).any
        (fun p => p.role = some "recruiter") = true)
    (hb2 : (sess.participants ++ [mkPart pid n role t]).any
        (fun p => p.role = some "candidate") = true) :
    (joinStep sess n role pid t).status = "in-progress" := by
  unfold joinStep
  simp only [hc] at *
  simp [hc, hb1, hb2]

/-- Join into a completed session that still lacks a recruiter or a
candidate: the status stays `completed`. -/
theorem joinStep_completed_stays (sess : LSession) (n role : Option String)
    (pid : String) (t : Nat) (hc : sess.status = "completed")
    (hb : ((sess.participants ++ [mkPart pid n role t]).any
          (fun p => p.role = some "recruiter")
        && (sess.participants ++ [mkPart pid n role t]).any
          (fun p => p.role = some "candidate")) = false) :
    (joinStep sess n role pid t).status = "completed" := by
  have hb2 : ¬ (((sess.participants ++ [mkPart pid n role t]).any
        (fun p => p.role = some "recruiter")
      && (sess.participants ++ [mkPart pid n role t]).any
        (fun p => p.role = some "candidate")) = true) := by
    rw [hb]
    decide
  unfold joinStep
  simp only [Bool.and_eq_true, not_and_or] at hb2
  rcases hb2 with hb2 | hb2 <;> simp [hc, hb2]

/-! ### Claim theorems: live-interview session lifecycle -/

/-- C6 (corrected, with the interviewer-class role spelled `recruiter` as
in the code): joining a scheduled session that holds no candidate first
with role recruiter and then with role candidate drives the status
scheduled → waiting → in-progress, each transition exactly once; a third
join with role recruiter neither re-triggers the in-progress transition
nor resets the recorded start time. -/
theorem session_status_transitions (st : LSessions) (sessionId : String) (sess : LSession)
    (n1 n2 n3 : Option String) (pid1 pid2 pid3 : String) (t1 t2 t3 : Nat)
    (h0 : mapGet st sessionId = some sess) (hs : sess.status = "scheduled")
    (hsa : sess.startedAt = none)
    (hnc : sess.participants.any (fun p => p.role = some "candidate") = false) :
    statusOf (joinT st sessionId n1 (some "recruiter") (some sess.accessCode) pid1
        t1).1 sessionId = some "waiting"
    ∧ startedAtOf (joinT st sessionId n1 (some "recruiter") (some sess.accessCode) pid1
        t1).1 sessionId = some none
    ∧ statusOf (joinT (joinT st sessionId n1 (some "recruiter") (some sess.accessCode)
        pid1 t1).1 sessionId n2 (some "candidate") (some sess.accessCode) pid2
        t2).1 sessionId = some "in-progress"
    ∧ startedAtOf (joinT (joinT st sessionId n1 (some "recruiter") (some sess.accessCode)
        pid1 t1).1 sessionId n2 (some "candidate") (some sess.accessCode) pid2
        t2).1 sessionId = some (some t2)
    ∧ statusOf (joinT (joinT (joinT st sessionId n1 (some "recruiter")
        (some sess.accessCode) pid1 t1).1 sessionId n2 (some "candidate")
        (some sess.accessCode) pid2 t2).1 sessionId n3 (some "recruiter")
        (some sess.accessCode) pid3 t3).1 sessionId = some "in-progress"
    ∧ startedAtOf (joinT (joinT (joinT st sessionId n1 (some "recruiter")
        (some sess.accessCode) pid1 t1).1 sessionId n2 (some "candidate")
        (some sess.accessCode) pid2 t2).1 sessionId n3 (some "recruiter")
        (some sess.accessCode) pid3 t3).1 sessionId = some (some t2) := by
  have e1 := joinT_eq_joinStep st sessionId sess n1 (some "recruiter") pid1 t1 h0
  have hA := joinStep_first_recruiter sess n1 pid1 t1 hs hnc
  have g1 : mapGet (joinT st sessionId n1 (some "recruiter") (some sess.accessCode) pid1
      t1).1 sessionId = some (joinStep sess n1 (some "recruiter") pid1 t1) := by
    rw [e1]
    exact mapGet_set_self _ _ _
  have hAcc : (joinStep sess n1 (some "recruiter") pid1 t1).accessCode = sess.accessCode :=
    joinStep_accessCode sess n1 (some "recruiter") pid1 t1
  have e2 := joinT_eq_joinStep _ sessionId (joinStep sess n1 (some "recruiter") pid1 t1)
    n2 (some "candidate") pid2 t2 g1
  rw [hAcc] at e2
  have hB := joinStep_candidate_starts (joinStep sess n1 (some "recruiter") pid1 t1) n2
    pid2 t2 (by rw [hA]) (by rw [hA]; simp [mkPart])
  have g2 : mapGet (joinT (joinT st sessionId n1 (some "recruiter") (some sess.accessCode)
      pid1 t1).1 sessionId n2 (some "candidate") (some sess.accessCode) pid2
      t2).1 sessionId =
      some (joinStep (joinStep sess n1 (some "recruiter") pid1 t1) n2 (some "candidate")
        pid2 t2) := by
    rw [e2]
    exact mapGet_set_self _ _ _
  have hBcc : (joinStep (joinStep sess n1 (some "recruiter") pid1 t1) n2 (some "candidate")
      pid2 t2).accessCode = sess.accessCode := by
    rw [joinStep_accessCode, joinStep_accessCode]
  have e3 := joinT_eq_joinStep _ sessionId
    (joinStep (joinStep sess n1 (some "recruiter") pid1 t1) n2 (some "candidate") pid2 t2)
    n3 (some "recruiter") pid3 t3 g2
  rw [hBcc] at e3
  have hC := joinStep_in_progress
    (joinStep (joinStep sess n1 (some "recruiter") pid1 t1) n2 (some "candidate") pid2 t2)
    n3 (some "recruiter") pid3 t3 (by rw [hB])
  have g3 : mapGet (joinT (joinT (joinT st sessionId n1 (some "recruiter")
      (some sess.accessCode) pid1 t1).1 sessionId n2 (some "candidate")
      (some sess.accessCode) pid2 t2).1 sessionId n3 (some "recruiter")
      (some sess.accessCode) pid3 t3).1 sessionId =
      some (joinStep (joinStep (joinStep sess n1 (some "recruiter") pid1 t1) n2
        (some "candidate") pid2 t2) n3 (some "recruiter") pid3 t3) := by
    rw [e3]
    exact mapGet_set_self _ _ _
  refine ⟨?_, ?_, ?_, ?_, ?_, ?_⟩
  · simp [statusOf, g1, hA]
  · simp [startedAtOf, g1, hA, hsa]
  · simp [statusOf, g2, hB]
  · simp [startedAtOf, g2, hB]
  · simp only [statusOf, g3, Option.map_some']
    rw [hC]
    simp [hB]
  · simp only [startedAtOf, g3, Option.map_some']
    rw [hC]
    simp [hB]

def c6base : LSessions := [("S", freshSession "AB12CD")]

def c6j1 : LSessions :=
  (joinT c6base "S" (some "rex") (some "recruiter") (some "AB12CD") "p1" 1).1

def c6j2 : LSessions :=
  (joinT c6j1 "S" (some "cal") (some "candidate") (some "AB12CD") "p2" 2).1

def c6j3 : LSessions :=
  (joinT c6j2 "S" (some "rhea") (some "recruiter") (some "AB12CD") "p3" 3).1

/-- Witness for C6 (corrected) on a fresh session. -/
theorem session_status_transitions_witness :
    (mapGet c6base "S" = some (freshSession "AB12CD")
      ∧ (freshSession "AB12CD").status = "scheduled"
      ∧ (freshSession "AB12CD").startedAt = none
      ∧ (freshSession "AB12CD").participants.any
          (fun p => p.role = some "candidate") = false)
    ∧ (statusOf c6j1 "S" = some "waiting"
      ∧ startedAtOf c6j1 "S" = some none
      ∧ statusOf c6j2 "S" = some "in-progress"
      ∧ startedAtOf c6j2 "S" = some (some 2)
      ∧ statusOf c6j3 "S" = some "in-progress"
      ∧ startedAtOf c6j3 "S" = some (some 2)) :=
  ⟨⟨by decide, by decide, by decide, by decide⟩,
   session_status_transitions c6base "S" (freshSession "AB12CD") (some "rex") (some "cal")
     (some "rhea") "p1" "p2" "p3" 1 2 3 (by decide) (by decide) (by decide) (by decide)⟩

/-- Counterexample to C6 as stated: with the role string literally
`interviewer` (which the code never checks for — it checks `recruiter`),
an interviewer-then-candidate pair of joins leaves the session stuck in
`waiting`: the waiting → in-progress transition never happens and no
start time is recorded. -/
theorem interviewer_role_never_starts_session :
    statusOf (joinT (joinT [("S", freshSession "AB12CD")] "S" (some "ina")
        (some "interviewer") (some "AB12CD") "p1" 1).1 "S" (some "cal") (some "candidate")
        (some "AB12CD") "p2" 2).1 "S" = some "waiting"
    ∧ ¬ statusOf (joinT (joinT [("S", freshSession "AB12CD")] "S" (some "ina")
        (some "interviewer") (some "AB12CD") "p1" 1).1 "S" (some "cal") (some "candidate")
        (some "AB12CD") "p2" 2).1 "S" = some "in-progress"
    ∧ startedAtOf (joinT (joinT [("S", freshSession "AB12CD")] "S" (some "ina")
        (some "interviewer") (some "AB12CD") "p1" 1).1 "S" (some "cal") (some "candidate")
        (some "AB12CD") "p2" 2).1 "S" = some none := by
  decide

/-- C7 (corrected): `completed` is not a terminal state for mutation.
After POST /end sets a session's status to `completed`, a snapshot call
still appends a code snapshot and a proctoring-event call still appends
to the proctoring log (both leaving the status `completed`), and a valid
join still appends a participant — resetting the status to `in-progress`
whenever the join makes both a recruiter and a candidate present. -/
theorem completed_session_still_mutable (st : LSessions) (sessionId : String)
    (sess : LSession) (code lang n role pev : Option String) (ts : Option Nat)
    (pid : String) (now : Nat)
    (h0 : mapGet st sessionId = some sess) (hc : sess.status = "completed") :
    (statusOf (snapshotT st sessionId code lang ts now).1 sessionId = some "completed"
      ∧ (mapGet (snapshotT st sessionId code lang ts now).1 sessionId).map
          (fun s2 => s2.codeSnapshots.length) = some (sess.codeSnapshots.length + 1))
    ∧ (statusOf (proctorEventT st sessionId pev now).1 sessionId = some "completed"
      ∧ (mapGet (proctorEventT st sessionId pev now).1 sessionId).map
          (fun s2 => s2.proctoringEvents) = some (sess.proctoringEvents ++ [(pev, now)]))
    ∧ ((mapGet (joinT st sessionId n role (some sess.accessCode) pid now).1 sessionId).map
          (fun s2 => s2.participants) =
        some (sess.participants ++ [mkPart pid n role now])
      ∧ statusOf (joinT st sessionId n role (some sess.accessCode) pid now).1 sessionId =
          some (if ((sess.participants ++ [mkPart pid n role now]).any
                (fun p => p.role = some "recruiter")
              && (sess.participants ++ [mkPart pid n role now]).any
                (fun p => p.role = some "candidate")) = true then "in-progress"
            else "completed")) := by
  have ej := joinT_eq_joinStep st sessionId sess n role pid now h0
  have gj : mapGet (joinT st sessionId n role (some sess.accessCode) pid
      now).1 sessionId = some (joinStep sess n role pid now) := by
    rw [ej]
    exact mapGet_set_self _ _ _
  refine ⟨⟨?_, ?_⟩, ⟨?_, ?_⟩, ?_, ?_⟩
  · unfold statusOf snapshotT
    rw [h0]
    dsimp only
    rw [mapGet_set_self]
    simp [hc]
  · unfold snapshotT
    rw [h0]
    dsimp only
    rw [mapGet_set_self]
    simp
  · unfold statusOf proctorEventT
    rw [h0]
    dsimp only
    rw [mapGet_set_self]
    simp [hc]
  · unfold proctorEventT
    rw [h0]
    dsimp only
    rw [mapGet_set_self]
    simp
  · rw [gj]
    simp [joinStep_participants]
  · unfold statusOf
    rw [gj]
    by_cases hb : ((sess.participants ++ [mkPart pid n role now]).any
          (fun p => p.role = some "recruiter")
        && (sess.participants ++ [mkPart pid n role now]).any
          (fun p => p.role = some "candidate")) = true
    · rw [if_pos hb]
      obtain ⟨hb1, hb2⟩ := Bool.and_eq_true_iff.mp hb
      simp [joinStep_completed_to_in_progress sess n role pid now hc hb1 hb2]
    · rw [if_neg hb]
      have hbf : ((sess.participants ++ [mkPart pid n role now]).any
            (fun p => p.role = some "recruiter")
          && (sess.participants ++ [mkPart pid n role now]).any
            (fun p => p.role = some "candidate")) = false := by
        simpa using hb
      simp [joinStep_completed_stays sess n role pid now hc hbf]

def c7sess : LSession :=
  { accessCode := "AB12CD", status := "completed", participants := [], startedAt := none,
    endedAt := some 5, codeSnapshots := [], proctoringEvents := [], feedback := none }

def c7st : LSessions := [("S", c7sess)]

/-- Witness for C7 (corrected) on a concrete completed session. -/
theorem completed_session_still_mutable_witness :
    (mapGet c7st "S" = some c7sess ∧ c7sess.status = "completed")
    ∧ ((statusOf (snapshotT c7st "S" (some "x") (some "js") none 6).1 "S" = some "completed"
        ∧ (mapGet (snapshotT c7st "S" (some "x") (some "js") none 6).1 "S").map
            (fun s2 => s2.codeSnapshots.length) = some (c7sess.codeSnapshots.length + 1))
      ∧ (statusOf (proctorEventT c7st "S" (some "e") 6).1 "S" = some "completed"
        ∧ (mapGet (proctorEventT c7st "S" (some "e") 6).1 "S").map
            (fun s2 => s2.proctoringEvents) =
          some (c7sess.proctoringEvents ++ [(some "e", 6)]))
      ∧ ((mapGet (joinT c7st "S" (some "cal") (some "candidate") (some c7sess.accessCode)
            "p9" 6).1 "S").map (fun s2 => s2.participants) =
          some (c7sess.participants ++ [mkPart "p9" (some "cal") (some "candidate") 6])
        ∧ statusOf (joinT c7st "S" (some "cal") (some "candidate")
            (some c7sess.accessCode) "p9" 6).1 "S" =
            some (if ((c7sess.participants ++ [mkPart "p9" (some "cal")
                  (some "candidate") 6]).any (fun p => p.role = some "recruiter")
                && (c7sess.participants ++ [mkPart "p9" (some "cal")
                  (some "candidate") 6]).any (fun p => p.role = some "candidate")) = true
              then "in-progress" else "completed"))) :=
  ⟨⟨by decide, by decide⟩,
   completed_session_still_mutable c7st "S" c7sess (some "x") (some "js") (some "cal")
     (some "candidate") (some "e") none "p9" 6 (by decide) (by decide)⟩

def c7end : LSessions :=
  (endT (joinT [("S", freshSession "AB12CD")] "S" (some "rex") (some "recruiter")
    (some "AB12CD") "p1" 1).1 "S" none none 2).1

/-- Counterexample to C7 as stated: a session ended while only a
recruiter was present is `completed`, yet a later candidate join is
accepted, grows the participant list, and moves the status back to
`in-progress`; a later snapshot call likewise appends to the completed
session's code-snapshot log. -/
theorem completed_session_mutated_counterexample :
    statusOf c7end "S" = some "completed"
    ∧ statusOf (joinT c7end "S" (some "cal") (some "candidate") (some "AB12CD")
        "p2" 3).1 "S" = some "in-progress"
    ∧ (mapGet (joinT c7end "S" (some "cal") (some "candidate") (some "AB12CD")
        "p2" 3).1 "S").map (fun s2 => s2.participants.length) = some 2
    ∧ (mapGet (snapshotT c7end "S" (some "x") (some "js") none 4).1 "S").map
        (fun s2 => s2.codeSnapshots.length) = some 1 := by
  decide

end HireSpec
